import Mathlib

/-!
Shallow embedding of the `garden` repository's core domain
(crates/garden-core): models, validation, the in-memory repositories
(`ports/memory.rs`) and the `GardenService` orchestrator
(`services/garden.rs`), together with proofs about the claims of the
specification.

Modelling conventions:
* Rust `String` is Lean `String`; `DateTime<Utc>` timestamps are abstract
  instants modelled as `Int`, and every operation that calls `Utc::now()`
  takes the current instant as an explicit `now` parameter.
* `i32` positions are modelled as `Int` (no operation here relies on
  wrap-around; Rust would panic on overflow in debug builds rather than
  silently wrap).
* `f32` durations are modelled as `Float`; they are inert for every claim.
* Id generation (`uuid::Uuid::new_v4`) is modelled by passing the fresh id
  explicitly to the creating operation.
* The third-party `url` crate is an external collaborator: `Url::parse` is
  abstracted as a parameter `up : UrlParser` returning the two components
  the code inspects (scheme and host), or `none` when unparsable.
* The `HashMap` stores are modelled as functions to `Option`, the
  `Vec<Connection>` store as a `List Connection`; fallible operations
  return an `Except` result paired with the (possibly unchanged) state.
-/

namespace Garden

/-- Unique identifier for a block (`BlockId(pub String)` in `models/block.rs`). -/
structure BlockId where
  val : String
deriving DecidableEq

/-- Unique identifier for a channel (`ChannelId(pub String)` in `models/channel.rs`). -/
structure ChannelId where
  val : String
deriving DecidableEq

/-- The content of a block (`BlockContent` in `models/block.rs`). -/
inductive BlockContent where
  | Text (body : String)
  | Link (url : String) (title description alt_text : Option String)
  | Image (file_path : String) (original_url : Option String)
      (width height : Option Nat) (mime_type : String) (alt_text : Option String)
  | Video (file_path : String) (original_url : Option String)
      (width height : Option Nat) (duration : Option Float)
      (mime_type : String) (alt_text : Option String)
  | Audio (file_path : String) (original_url : Option String)
      (duration : Option Float) (mime_type : String)
      (title artist : Option String)

/-- A channel (`Channel` in `models/channel.rs`). -/
structure Channel where
  id : ChannelId
  title : String
  description : Option String
  created_at : Int
  updated_at : Int
deriving DecidableEq

/-- The `Channel::new` constructor: fresh id and identical timestamps. -/
def Channel.new (id : ChannelId) (now : Int) (title : String) : Channel :=
  { id := id, title := title, description := none, created_at := now, updated_at := now }

/-- The `Channel::with_description` constructor. -/
def Channel.with_description (id : ChannelId) (now : Int)
    (title description : String) : Channel :=
  { Channel.new id now title with description := some description }

/-- A block (`Block` in `models/block.rs`). -/
structure Block where
  id : BlockId
  content : BlockContent
  created_at : Int
  updated_at : Int
  source_url : Option String
  source_title : Option String
  creator : Option String
  original_date : Option String
  notes : Option String

/-- The `Block::new` constructor: fresh id, identical timestamps, no metadata. -/
def Block.new (id : BlockId) (now : Int) (content : BlockContent) : Block :=
  { id := id, content := content, created_at := now, updated_at := now,
    source_url := none, source_title := none, creator := none,
    original_date := none, notes := none }

/-- A connection between a block and a channel (`Connection` in `models/connection.rs`). -/
structure Connection where
  block_id : BlockId
  channel_id : ChannelId
  position : Int
  connected_at : Int
deriving DecidableEq

/-- The `Connection::new` constructor (`connected_at = Utc::now()`). -/
def Connection.new (block_id : BlockId) (channel_id : ChannelId)
    (position : Int) (now : Int) : Connection :=
  { block_id := block_id, channel_id := channel_id, position := position,
    connected_at := now }

/-- Tri-state optional-field update descriptor (`FieldUpdate<T>` in `models/common.rs`). -/
inductive FieldUpdate (α : Type) where
  | Keep
  | Clear
  | Set (value : α)
deriving DecidableEq

/-- Apply this update to an optional field (`FieldUpdate::apply`). -/
def FieldUpdate.apply : FieldUpdate α → Option α → Option α
  | .Keep, current => current
  | .Clear, _ => none
  | .Set value, _ => some value

/-- Check if this update will change the value (`FieldUpdate::is_update`). -/
def FieldUpdate.is_update : FieldUpdate α → Bool
  | .Keep => false
  | .Clear => true
  | .Set _ => true

/-- Data for creating a new channel (`NewChannel`). -/
structure NewChannel where
  title : String
  description : Option String

/-- Data for creating a new block (`NewBlock`). -/
structure NewBlock where
  content : BlockContent
  source_url : Option String := none
  source_title : Option String := none
  creator : Option String := none
  original_date : Option String := none
  notes : Option String := none

/-- Data for updating a channel (`ChannelUpdate`). -/
structure ChannelUpdate where
  title : Option String
  description : FieldUpdate String

/-- Data for updating a block (`BlockUpdate`; a `none` field means keep). -/
structure BlockUpdate where
  content : Option BlockContent := none
  source_url : Option (FieldUpdate String) := none
  source_title : Option (FieldUpdate String) := none
  creator : Option (FieldUpdate String) := none
  original_date : Option (FieldUpdate String) := none
  notes : Option (FieldUpdate String) := none

/-- Repository-level errors (`RepoError` in `error.rs`). -/
inductive RepoError where
  | NotFound
  | Duplicate
  | Database (msg : String)
  | Serialization (msg : String)
deriving DecidableEq

/-- Domain-level errors (`DomainError` in `error.rs`). -/
inductive DomainError where
  | ChannelNotFound (id : ChannelId)
  | BlockNotFound (id : BlockId)
  | ConnectionNotFound (block_id : BlockId) (channel_id : ChannelId)
  | InvalidInput (msg : String)
  | Repository (e : RepoError)
deriving DecidableEq

instance {ε α : Type} [DecidableEq ε] [DecidableEq α] : DecidableEq (Except ε α) := by
  intro a b
  cases a <;> cases b
  case error.error x y =>
    exact if h : x = y then .isTrue (by rw [h]) else .isFalse (fun he => h (by injection he))
  case error.ok x y => exact .isFalse (fun he => Except.noConfusion he)
  case ok.error x y => exact .isFalse (fun he => Except.noConfusion he)
  case ok.ok x y =>
    exact if h : x = y then .isTrue (by rw [h]) else .isFalse (fun he => h (by injection he))

/-- Result of the third-party `Url::parse`, abstracted to the two components
`validate_url` inspects: `scheme()` and `host()`. -/
structure ParsedUrl where
  scheme : String
  host : Option String
deriving DecidableEq

/-- Rust `str::trim().is_empty()`: true iff every character is whitespace
(the source only ever asks whether the trimmed string is empty). -/
def trim_is_empty (s : String) : Bool :=
  s.toList.all Char.isWhitespace

/-- Rust `str::starts_with`, over the character list. -/
def starts_with (s pre : String) : Bool :=
  pre.toList.isPrefixOf s.toList

/-- Abstract URL parser standing for `url::Url::parse` (`none` = parse error). -/
def UrlParser : Type := String → Option ParsedUrl

/-- Validate text content is not empty (`validation.rs::validate_text`). -/
def validate_text (text : String) : Except DomainError Unit :=
  if trim_is_empty text then
    .error (.InvalidInput "text block cannot be empty")
  else
    .ok ()

/-- Validate optional text fields (`validation.rs::validate_optional_text`):
empty is allowed, whitespace-only is not. -/
def validate_optional_text (field_name text : String) : Except DomainError Unit :=
  if text.isEmpty then
    .ok ()
  else if trim_is_empty text then
    .error (.InvalidInput (field_name ++ " cannot be only whitespace"))
  else
    .ok ()

/-- Validate a media file path (`validation.rs::validate_file_path`). -/
def validate_file_path (path : String) : Except DomainError Unit :=
  if trim_is_empty path then
    .error (.InvalidInput "file path cannot be empty")
  else if "..".toList <:+: path.toList then
    .error (.InvalidInput "file path cannot contain ..")
  else if starts_with path "/" || starts_with path "\\" then
    .error (.InvalidInput "file path must be relative")
  else
    .ok ()

/-- Validate a MIME type against a category (`validation.rs::validate_mime_type`). -/
def validate_mime_type (mime_type expected_category : String) : Except DomainError Unit :=
  if trim_is_empty mime_type then
    .error (.InvalidInput "MIME type cannot be empty")
  else if !(starts_with mime_type (expected_category ++ "/")) then
    .error (.InvalidInput ("expected " ++ expected_category ++ " MIME type"))
  else
    .ok ()

/-- Validate a URL string (`validation.rs::validate_url`), with the `url`
crate parse abstracted as the parameter `up`. -/
def validate_url (up : UrlParser) (url_str : String) : Except DomainError Unit :=
  if trim_is_empty url_str then
    .error (.InvalidInput "link URL cannot be empty")
  else
    match up url_str with
    | none => .error (.InvalidInput ("invalid URL " ++ url_str))
    | some parsed =>
      if parsed.scheme = "http" ∨ parsed.scheme = "https" then
        if parsed.host.isNone then
          .error (.InvalidInput "URL must have a valid host")
        else
          .ok ()
      else
        .error (.InvalidInput
          ("URL scheme " ++ parsed.scheme ++ " is not allowed, use http or https"))

/-- Validate an optional text field when present. -/
def validate_opt (field_name : String) : Option String → Except DomainError Unit
  | some t => validate_optional_text field_name t
  | none => .ok ()

/-- Validate an optional URL when present. -/
def validate_opt_url (up : UrlParser) : Option String → Except DomainError Unit
  | some u => validate_url up u
  | none => .ok ()

/-- Validate block content (`validation.rs::validate_block_content`). -/
def validate_block_content (up : UrlParser) : BlockContent → Except DomainError Unit
  | .Text body => validate_text body
  | .Link url title description alt_text => do
    validate_url up url
    validate_opt "title" title
    validate_opt "description" description
    validate_opt "alt_text" alt_text
  | .Image file_path original_url _ _ mime_type alt_text => do
    validate_file_path file_path
    validate_mime_type mime_type "image"
    validate_opt "alt_text" alt_text
    validate_opt_url up original_url
  | .Video file_path original_url _ _ _ mime_type alt_text => do
    validate_file_path file_path
    validate_mime_type mime_type "video"
    validate_opt "alt_text" alt_text
    validate_opt_url up original_url
  | .Audio file_path original_url _ mime_type title artist => do
    validate_file_path file_path
    validate_mime_type mime_type "audio"
    validate_opt "title" title
    validate_opt "artist" artist
    validate_opt_url up original_url

/-- Validate a channel title (`validation.rs::validate_channel_title`). -/
def validate_channel_title (title : String) : Except DomainError Unit :=
  if trim_is_empty title then
    .error (.InvalidInput "channel title cannot be empty")
  else
    .ok ()

/-!
The shared in-memory stores of `ports/memory.rs`: the channel and block
`HashMap`s are modelled as functions to `Option`, the connection `Vec` as a
list (pushes append at the end, iteration is list order).
-/

/-- The combined stores of the `TestFixture`-shared in-memory repositories. -/
structure GardenState where
  channels : ChannelId → Option Channel
  blocks : BlockId → Option Block
  connections : List Connection

/-- The initial, empty stores. -/
def emptyState : GardenState :=
  { channels := fun _ => none, blocks := fun _ => none, connections := [] }

/-- HashMap insert (overwrites) into the channel store. -/
def GardenState.insertChannel (st : GardenState) (ch : Channel) : GardenState :=
  { st with channels := fun i => if i = ch.id then some ch else st.channels i }

/-- HashMap remove from the channel store. -/
def GardenState.removeChannel (st : GardenState) (id : ChannelId) : GardenState :=
  { st with channels := fun i => if i = id then none else st.channels i }

/-- HashMap insert (overwrites) into the block store. -/
def GardenState.insertBlock (st : GardenState) (b : Block) : GardenState :=
  { st with blocks := fun i => if i = b.id then some b else st.blocks i }

/-- HashMap remove from the block store. -/
def GardenState.removeBlock (st : GardenState) (id : BlockId) : GardenState :=
  { st with blocks := fun i => if i = id then none else st.blocks i }

namespace ConnRepo

/-- The duplicate test used throughout `InMemoryConnectionRepository`. -/
def isPair (block_id : BlockId) (channel_id : ChannelId) (c : Connection) : Bool :=
  c.block_id == block_id && c.channel_id == channel_id

/-- `InMemoryConnectionRepository::get_connection`: first matching entry. -/
def get_connection (conns : List Connection) (block_id : BlockId)
    (channel_id : ChannelId) : Option Connection :=
  conns.find? (isPair block_id channel_id)

/-- `InMemoryConnectionRepository::connect`: fail `Duplicate` if the pair
exists, else push at the end. -/
def connect (conns : List Connection) (block_id : BlockId) (channel_id : ChannelId)
    (position : Int) (now : Int) : Except RepoError (List Connection) :=
  if conns.any (isPair block_id channel_id) then
    .error .Duplicate
  else
    .ok (conns ++ [Connection.new block_id channel_id position now])

/-- `InMemoryConnectionRepository::connect_batch`: check every pair against
the existing entries first, then push all. -/
def connect_batch (conns : List Connection)
    (batch : List (BlockId × ChannelId × Int)) (now : Int) :
    Except RepoError (List Connection) :=
  if batch.any (fun t => conns.any (isPair t.1 t.2.1)) then
    .error .Duplicate
  else
    .ok (conns ++ batch.map (fun t => Connection.new t.1 t.2.1 t.2.2 now))

/-- `InMemoryConnectionRepository::disconnect`: retain non-matching entries,
fail `NotFound` when nothing was removed. -/
def disconnect (conns : List Connection) (block_id : BlockId)
    (channel_id : ChannelId) : Except RepoError (List Connection) :=
  let remaining := conns.filter (fun c => !(isPair block_id channel_id c))
  if remaining.length = conns.length then .error .NotFound else .ok remaining

/-- `InMemoryConnectionRepository::get_blocks_in_channel`: filter this
channel's connections, look each block up, and stable-sort by position. -/
def get_blocks_in_channel (conns : List Connection) (blocks : BlockId → Option Block)
    (channel_id : ChannelId) : List (Block × Int) :=
  ((conns.filter (fun c => c.channel_id == channel_id)).filterMap
      (fun c => (blocks c.block_id).map (fun b => (b, c.position)))).mergeSort
    (fun x y => decide (x.2 ≤ y.2))

/-- `InMemoryConnectionRepository::get_channels_for_block`. -/
def get_channels_for_block (conns : List Connection)
    (channels : ChannelId → Option Channel) (block_id : BlockId) : List Channel :=
  (conns.filter (fun c => c.block_id == block_id)).filterMap
    (fun c => channels c.channel_id)

/-- `InMemoryConnectionRepository::reorder`: find the first matching entry and
overwrite its position, `NotFound` when absent. -/
def reorder (conns : List Connection) (channel_id : ChannelId) (block_id : BlockId)
    (new_position : Int) : Except RepoError (List Connection) :=
  match conns with
  | [] => .error .NotFound
  | c :: rest =>
    if isPair block_id channel_id c then
      .ok ({ c with position := new_position } :: rest)
    else
      match reorder rest channel_id block_id new_position with
      | .ok rest' => .ok (c :: rest')
      | .error e => .error e

/-- `InMemoryConnectionRepository::next_position`: max position in the
channel plus one, with `unwrap_or(-1)` for an empty channel. -/
def next_position (conns : List Connection) (channel_id : ChannelId) : Int :=
  (((conns.filter (fun c => c.channel_id == channel_id)).map
      (fun c => c.position)).max?.getD (-1)) + 1

end ConnRepo

namespace GardenService

/-- `GardenService::get_channel`: repository get or `ChannelNotFound`. -/
def get_channel (st : GardenState) (id : ChannelId) : Except DomainError Channel :=
  match st.channels id with
  | some ch => .ok ch
  | none => .error (.ChannelNotFound id)

/-- `GardenService::get_block`: repository get or `BlockNotFound`. -/
def get_block (st : GardenState) (id : BlockId) : Except DomainError Block :=
  match st.blocks id with
  | some b => .ok b
  | none => .error (.BlockNotFound id)

/-- `GardenService::create_channel` (with the generated id and clock passed in). -/
def create_channel (nc : NewChannel) (id : ChannelId) (now : Int)
    (st : GardenState) : Except DomainError Channel × GardenState :=
  match validate_channel_title nc.title with
  | .error e => (.error e, st)
  | .ok () =>
    let ch := match nc.description with
      | some desc => Channel.with_description id now nc.title desc
      | none => Channel.new id now nc.title
    if (st.channels ch.id).isSome then
      (.error (.Repository .Duplicate), st)
    else
      (.ok ch, st.insertChannel ch)

/-- `GardenService::create_block`. -/
def create_block (up : UrlParser) (nb : NewBlock) (id : BlockId) (now : Int)
    (st : GardenState) : Except DomainError Block × GardenState :=
  match validate_block_content up nb.content with
  | .error e => (.error e, st)
  | .ok () =>
    let b := Block.new id now nb.content
    if (st.blocks b.id).isSome then
      (.error (.Repository .Duplicate), st)
    else
      (.ok b, st.insertBlock b)

/-- The validate-all loop of `GardenService::create_blocks` (first error wins). -/
def validate_all (up : UrlParser) : List NewBlock → Except DomainError Unit
  | [] => .ok ()
  | nb :: rest => do
    validate_block_content up nb.content
    validate_all up rest

/-- `InMemoryBlockRepository::create_batch`: check all ids, then insert all. -/
def create_batch (st : GardenState) (bs : List Block) :
    Except RepoError GardenState :=
  if bs.any (fun b => (st.blocks b.id).isSome) then
    .error .Duplicate
  else
    .ok (bs.foldl GardenState.insertBlock st)

/-- `GardenService::create_blocks`: validate every item before any write,
then persist atomically via `create_batch`. -/
def create_blocks (up : UrlParser) (nbs : List NewBlock) (ids : List BlockId)
    (now : Int) (st : GardenState) : Except DomainError (List Block) × GardenState :=
  match validate_all up nbs with
  | .error e => (.error e, st)
  | .ok () =>
    let bs := (nbs.zip ids).map (fun p => Block.new p.2 now p.1.content)
    match create_batch st bs with
    | .error e => (.error (.Repository e), st)
    | .ok st' => (.ok bs, st')

/-- `GardenService::update_channel`. -/
def update_channel (id : ChannelId) (u : ChannelUpdate) (now : Int)
    (st : GardenState) : Except DomainError Channel × GardenState :=
  match get_channel st id with
  | .error e => (.error e, st)
  | .ok ch =>
    match u.title with
    | some t =>
      match validate_channel_title t with
      | .error e => (.error e, st)
      | .ok () =>
        let ch₁ := { ch with title := t }
        let ch₂ := { ch₁ with description := u.description.apply ch₁.description,
                              updated_at := now }
        if (st.channels ch₂.id).isSome then
          (.ok ch₂, st.insertChannel ch₂)
        else
          (.error (.Repository .NotFound), st)
    | none =>
      let ch₂ := { ch with description := u.description.apply ch.description,
                           updated_at := now }
      if (st.channels ch₂.id).isSome then
        (.ok ch₂, st.insertChannel ch₂)
      else
        (.error (.Repository .NotFound), st)

/-- Apply one guarded metadata update of `GardenService::update_block`
(`None` means the field was not provided, i.e. keep). -/
def apply_opt (fu : Option (FieldUpdate String)) (current : Option String) :
    Option String :=
  match fu with
  | some f => f.apply current
  | none => current

/-- `GardenService::update_block`. -/
def update_block (up : UrlParser) (id : BlockId) (u : BlockUpdate) (now : Int)
    (st : GardenState) : Except DomainError Block × GardenState :=
  match get_block st id with
  | .error e => (.error e, st)
  | .ok b =>
    match u.content with
    | some content =>
      match validate_block_content up content with
      | .error e => (.error e, st)
      | .ok () =>
        let b₁ := { b with content := content }
        let b₂ := { b₁ with
          source_url := apply_opt u.source_url b₁.source_url,
          source_title := apply_opt u.source_title b₁.source_title,
          creator := apply_opt u.creator b₁.creator,
          original_date := apply_opt u.original_date b₁.original_date,
          notes := apply_opt u.notes b₁.notes,
          updated_at := now }
        if (st.blocks b₂.id).isSome then
          (.ok b₂, st.insertBlock b₂)
        else
          (.error (.Repository .NotFound), st)
    | none =>
      let b₂ := { b with
        source_url := apply_opt u.source_url b.source_url,
        source_title := apply_opt u.source_title b.source_title,
        creator := apply_opt u.creator b.creator,
        original_date := apply_opt u.original_date b.original_date,
        notes := apply_opt u.notes b.notes,
        updated_at := now }
      if (st.blocks b₂.id).isSome then
        (.ok b₂, st.insertBlock b₂)
      else
        (.error (.Repository .NotFound), st)

/-- `GardenService::delete_channel`: verify existence, then repository delete
(`InMemoryChannelRepository::delete` removes only the channel entry). -/
def delete_channel (id : ChannelId) (st : GardenState) :
    Except DomainError Unit × GardenState :=
  match get_channel st id with
  | .error e => (.error e, st)
  | .ok _ =>
    if (st.channels id).isSome then
      (.ok (), st.removeChannel id)
    else
      (.error (.Repository .NotFound), st)

/-- `GardenService::delete_block`: verify existence, then repository delete
(`InMemoryBlockRepository::delete` removes only the block entry). -/
def delete_block (id : BlockId) (st : GardenState) :
    Except DomainError Unit × GardenState :=
  match get_block st id with
  | .error e => (.error e, st)
  | .ok _ =>
    if (st.blocks id).isSome then
      (.ok (), st.removeBlock id)
    else
      (.error (.Repository .NotFound), st)

/-- Resolution of an optional caller position: the caller-supplied value if
given, else `next_position` (append semantics). -/
def resolve_position (conns : List Connection) (channel_id : ChannelId) :
    Option Int → Int
  | some p => p
  | none => ConnRepo.next_position conns channel_id

/-- `GardenService::connect_block`: verify block and channel exist, reject an
already-connected pair, resolve the position (append when `none`), persist,
re-fetch. -/
def connect_block (block_id : BlockId) (channel_id : ChannelId)
    (position : Option Int) (now : Int) (st : GardenState) :
    Except DomainError Connection × GardenState :=
  match get_block st block_id with
  | .error e => (.error e, st)
  | .ok _ =>
  match get_channel st channel_id with
  | .error e => (.error e, st)
  | .ok _ =>
  if (ConnRepo.get_connection st.connections block_id channel_id).isSome then
    (.error (.InvalidInput "block is already connected to this channel"), st)
  else
    let pos := resolve_position st.connections channel_id position
    match ConnRepo.connect st.connections block_id channel_id pos now with
    | .error e => (.error (.Repository e), st)
    | .ok conns' =>
      let st' := { st with connections := conns' }
      match ConnRepo.get_connection st'.connections block_id channel_id with
      | some conn => (.ok conn, st')
      | none => (.error (.ConnectionNotFound block_id channel_id), st')

/-- The precondition loop of `GardenService::connect_blocks`: every block
exists and is not already connected. -/
def check_blocks (st : GardenState) (channel_id : ChannelId) :
    List BlockId → Except DomainError Unit
  | [] => .ok ()
  | b :: rest =>
    match get_block st b with
    | .error e => .error e
    | .ok _ =>
      if (ConnRepo.get_connection st.connections b channel_id).isSome then
        .error (.InvalidInput
          ("block " ++ b.val ++ " is already connected to this channel"))
      else
        check_blocks st channel_id rest

/-- The `enumerate().map(...)` building of contiguous connection tuples in
`GardenService::connect_blocks` (`start_pos + index` in input order). -/
def with_positions (channel_id : ChannelId) (pos : Int) :
    List BlockId → List (BlockId × ChannelId × Int)
  | [] => []
  | b :: rest => (b, channel_id, pos) :: with_positions channel_id (pos + 1) rest

/-- `GardenService::connect_blocks`: verify the channel once, check every
block, compute contiguous positions, persist via `connect_batch`, re-fetch. -/
def connect_blocks (block_ids : List BlockId) (channel_id : ChannelId)
    (starting_position : Option Int) (now : Int) (st : GardenState) :
    Except DomainError (List Connection) × GardenState :=
  match get_channel st channel_id with
  | .error e => (.error e, st)
  | .ok _ =>
  match check_blocks st channel_id block_ids with
  | .error e => (.error e, st)
  | .ok () =>
    let start_pos := resolve_position st.connections channel_id starting_position
    let conns := with_positions channel_id start_pos block_ids
    match ConnRepo.connect_batch st.connections conns now with
    | .error e => (.error (.Repository e), st)
    | .ok conns' =>
      let st' := { st with connections := conns' }
      (.ok (block_ids.filterMap
        (fun b => ConnRepo.get_connection st'.connections b channel_id)), st')

/-- `GardenService::disconnect_block`: verify the connection exists first. -/
def disconnect_block (block_id : BlockId) (channel_id : ChannelId)
    (st : GardenState) : Except DomainError Unit × GardenState :=
  match ConnRepo.get_connection st.connections block_id channel_id with
  | none => (.error (.ConnectionNotFound block_id channel_id), st)
  | some _ =>
    match ConnRepo.disconnect st.connections block_id channel_id with
    | .error e => (.error (.Repository e), st)
    | .ok conns' => (.ok (), { st with connections := conns' })

/-- `GardenService::get_blocks_in_channel`: positions dropped. -/
def get_blocks_in_channel (st : GardenState) (channel_id : ChannelId) :
    List Block :=
  (ConnRepo.get_blocks_in_channel st.connections st.blocks channel_id).map Prod.fst

/-- `GardenService::reorder_block`: verify the connection exists first, then
overwrite its position unconditionally. -/
def reorder_block (channel_id : ChannelId) (block_id : BlockId)
    (new_position : Int) (st : GardenState) :
    Except DomainError Unit × GardenState :=
  match ConnRepo.get_connection st.connections block_id channel_id with
  | none => (.error (.ConnectionNotFound block_id channel_id), st)
  | some _ =>
    match ConnRepo.reorder st.connections channel_id block_id new_position with
    | .error e => (.error (.Repository e), st)
    | .ok conns' => (.ok (), { st with connections := conns' })

/-- `GardenService::get_connection`: lookup or `ConnectionNotFound`. -/
def get_connection (st : GardenState) (block_id : BlockId)
    (channel_id : ChannelId) : Except DomainError Connection :=
  match ConnRepo.get_connection st.connections block_id channel_id with
  | some conn => .ok conn
  | none => .error (.ConnectionNotFound block_id channel_id)

end GardenService

/-!
Operation traces: a reachable state is the result of a finite sequence of
successful service operations starting from empty repositories.
-/

/-- One service operation together with the fresh ids / clock readings its
execution consumes. -/
inductive Op where
  | create_channel (nc : NewChannel) (id : ChannelId) (now : Int)
  | create_block (nb : NewBlock) (id : BlockId) (now : Int)
  | create_blocks (nbs : List NewBlock) (ids : List BlockId) (now : Int)
  | update_channel (id : ChannelId) (u : ChannelUpdate) (now : Int)
  | update_block (id : BlockId) (u : BlockUpdate) (now : Int)
  | delete_channel (id : ChannelId)
  | delete_block (id : BlockId)
  | connect_block (b : BlockId) (c : ChannelId) (p : Option Int) (now : Int)
  | connect_blocks (bs : List BlockId) (c : ChannelId) (p : Option Int) (now : Int)
  | disconnect_block (b : BlockId) (c : ChannelId)
  | reorder_block (c : ChannelId) (b : BlockId) (p : Int)

/-- Keep the new state of a successful call, drop a failed one. -/
def toNext {α : Type} : Except DomainError α × GardenState → Option GardenState
  | (.ok _, st') => some st'
  | (.error _, _) => none

/-- Execute one operation, `none` when it fails. -/
def exec (up : UrlParser) (op : Op) (st : GardenState) : Option GardenState :=
  match op with
  | .create_channel nc id now => toNext (GardenService.create_channel nc id now st)
  | .create_block nb id now => toNext (GardenService.create_block up nb id now st)
  | .create_blocks nbs ids now => toNext (GardenService.create_blocks up nbs ids now st)
  | .update_channel id u now => toNext (GardenService.update_channel id u now st)
  | .update_block id u now => toNext (GardenService.update_block up id u now st)
  | .delete_channel id => toNext (GardenService.delete_channel id st)
  | .delete_block id => toNext (GardenService.delete_block id st)
  | .connect_block b c p now => toNext (GardenService.connect_block b c p now st)
  | .connect_blocks bs c p now => toNext (GardenService.connect_blocks bs c p now st)
  | .disconnect_block b c => toNext (GardenService.disconnect_block b c st)
  | .reorder_block c b p => toNext (GardenService.reorder_block c b p st)

/-- Execute a sequence of operations, `none` as soon as one fails. -/
def runOps (up : UrlParser) : List Op → GardenState → Option GardenState
  | [], st => some st
  | op :: ops, st =>
    match exec up op st with
    | some st' => runOps up ops st'
    | none => none

/-- A state is reachable when some finite sequence of successful service
operations produces it from the empty repositories. -/
def Reachable (up : UrlParser) (st : GardenState) : Prop :=
  ∃ ops, runOps up ops emptyState = some st

/-- The (block_id, channel_id) key of a connection. -/
def pairKey (c : Connection) : BlockId × ChannelId := (c.block_id, c.channel_id)

/-- At most one connection per (block_id, channel_id) pair. -/
def pairUnique (conns : List Connection) : Prop :=
  (conns.map pairKey).Nodup

/-- `connect_blocks` operations whose block-id list repeats no block; every
other operation is unrestricted. -/
def Op.good : Op → Prop
  | .connect_blocks bs _ _ _ => bs.Nodup
  | _ => True

/-- Reachability through operations whose `connect_blocks` inputs repeat no
block id. -/
def ReachableNodup (up : UrlParser) (st : GardenState) : Prop :=
  ∃ ops, (∀ op ∈ ops, op.good) ∧ runOps up ops emptyState = some st

/-!
Helper lemmas shared by several claims.
-/

/-- A validation result is either success or some `InvalidInput` message. -/
def onlyInvalid (r : Except DomainError Unit) : Prop :=
  ∀ e, r = .error e → ∃ m, e = .InvalidInput m

theorem toNext_eq_some {α : Type} {pr : Except DomainError α × GardenState}
    {st' : GardenState} : toNext pr = some st' ↔ ∃ a, pr = (.ok a, st') := by
  obtain ⟨r, s⟩ := pr
  cases r with
  | error e =>
    simp only [toNext]
    constructor
    · intro h; exact Option.noConfusion h
    · rintro ⟨a, ha⟩
      exact Except.noConfusion (congrArg Prod.fst ha)
  | ok v =>
    simp only [toNext, Option.some_inj]
    constructor
    · intro h; exact ⟨v, by rw [h]⟩
    · rintro ⟨a, ha⟩
      exact congrArg Prod.snd ha

theorem find?_append_cons {α : Type} {p : α → Bool} {l₁ l₂ : List α} {x : α}
    (h₁ : ∀ a ∈ l₁, p a = false) (hx : p x = true) :
    (l₁ ++ x :: l₂).find? p = some x := by
  induction l₁ with
  | nil => simp [List.find?, hx]
  | cons a as ih =>
    have ha := h₁ a (by simp)
    simp only [List.cons_append, List.find?, ha]
    exact ih (fun b hb => h₁ b (by simp [hb]))

theorem int_max?_eq_some_iff {l : List Int} {m : Int} :
    l.max? = some m ↔ m ∈ l ∧ ∀ x ∈ l, x ≤ m := by
  haveI : Std.Antisymm (fun (a b : Int) => a ≤ b) :=
    ⟨fun h1 h2 => le_antisymm h1 h2⟩
  exact List.max?_eq_some_iff (fun a => le_refl a) (fun a b => max_choice a b)
    (fun _ _ _ => max_le_iff)

theorem get_connection_eq_none_iff {conns : List Connection} {b : BlockId}
    {c : ChannelId} :
    ConnRepo.get_connection conns b c = none ↔ (b, c) ∉ conns.map pairKey := by
  rw [ConnRepo.get_connection, List.find?_eq_none]
  simp only [ConnRepo.isPair, List.mem_map, pairKey, Bool.and_eq_true,
    beq_iff_eq, not_exists, not_and, Prod.mk.injEq]

theorem get_connection_append_right {conns : List Connection} {b : BlockId}
    {c : ChannelId} {x : Connection} (rest : List Connection)
    (h : ConnRepo.get_connection conns b c = none)
    (hx : ConnRepo.isPair b c x = true) :
    ConnRepo.get_connection (conns ++ x :: rest) b c = some x := by
  unfold ConnRepo.get_connection at *
  refine find?_append_cons (fun a ha => ?_) hx
  exact Bool.eq_false_iff.mpr (List.find?_eq_none.mp h a ha)

/-!
C7: the field-update protocol.
-/

/-- C7: `Keep.apply(current) = current`, `Clear.apply(current) = None`,
`Set(v).apply(current) = Some(v)`; `apply` is pure and total, and
`is_update()` is true exactly on the non-`Keep` variants. -/
theorem garden_C7_field_update : ∀ (α : Type) (v : α) (current : Option α),
    (FieldUpdate.Keep).apply current = current ∧
    (FieldUpdate.Clear : FieldUpdate α).apply current = none ∧
    (FieldUpdate.Set v).apply current = some v ∧
    (∀ u : FieldUpdate α, u.is_update = true ↔ u ≠ .Keep) := by
  intro α v current
  refine ⟨rfl, rfl, rfl, ?_⟩
  intro u
  cases u <;> simp [FieldUpdate.is_update]

/-!
C9: `validate_url`.
-/

/-- C9: `validate_url` fails on empty/whitespace input, on unparsable input,
on a scheme other than exactly http or https, and on a missing host, and
succeeds otherwise. -/
theorem garden_C9_validate_url : ∀ (up : UrlParser) (s : String),
    (trim_is_empty s = true →
      validate_url up s = .error (.InvalidInput "link URL cannot be empty")) ∧
    (trim_is_empty s = false → up s = none →
      validate_url up s = .error (.InvalidInput ("invalid URL " ++ s))) ∧
    (∀ u, up s = some u → u.scheme ≠ "http" → u.scheme ≠ "https" →
      ∃ m, validate_url up s = .error (.InvalidInput m)) ∧
    (∀ u, up s = some u → u.host = none →
      ∃ m, validate_url up s = .error (.InvalidInput m)) ∧
    (∀ u, up s = some u → (u.scheme = "http" ∨ u.scheme = "https") →
      u.host ≠ none → trim_is_empty s = false → validate_url up s = .ok ()) := by
  intro up s
  refine ⟨?_, ?_, ?_, ?_, ?_⟩
  · intro h; simp [validate_url, h]
  · intro h hn; simp [validate_url, h, hn]
  · intro u hu h1 h2
    by_cases ht : trim_is_empty s = true
    · exact ⟨"link URL cannot be empty", by simp [validate_url, ht]⟩
    · refine ⟨"URL scheme " ++ u.scheme ++ " is not allowed, use http or https", ?_⟩
      simp only [validate_url, Bool.not_eq_true] at ht ⊢
      rw [ht]
      simp only [Bool.false_eq_true, if_false, hu]
      rw [if_neg (by simp [h1, h2])]
  · intro u hu hh
    by_cases ht : trim_is_empty s = true
    · exact ⟨"link URL cannot be empty", by simp [validate_url, ht]⟩
    · by_cases hs : u.scheme = "http" ∨ u.scheme = "https"
      · refine ⟨"URL must have a valid host", ?_⟩
        simp only [validate_url, Bool.not_eq_true] at ht ⊢
        rw [ht]
        simp only [Bool.false_eq_true, if_false, hu]
        rw [if_pos hs, if_pos (by simp [hh])]
      · refine ⟨"URL scheme " ++ u.scheme ++ " is not allowed, use http or https", ?_⟩
        simp only [validate_url, Bool.not_eq_true] at ht ⊢
        rw [ht]
        simp only [Bool.false_eq_true, if_false, hu]
        rw [if_neg hs]
  · intro u hu hs hh ht
    simp only [validate_url, ht, Bool.false_eq_true, if_false, hu]
    rw [if_pos hs, if_neg (by simpa [Option.isNone_iff_eq_none] using hh)]

/-- C9 witness data: a parser fragment agreeing with the `url` crate on the
examples named by the claim. -/
def sampleParser : UrlParser := fun s =>
  if s = "https://example.com" then some ⟨"https", some "example.com"⟩
  else if s = "ftp://x.com" then some ⟨"ftp", some "x.com"⟩
  else none

/-- C9 witness: concrete outcomes on "https://example.com" (success) and
"ftp://x.com" (scheme rejection). -/
theorem garden_C9_validate_url_witness :
    validate_url sampleParser "https://example.com" = .ok () ∧
    (∃ m, validate_url sampleParser "ftp://x.com" = .error (.InvalidInput m)) := by
  constructor
  · exact (garden_C9_validate_url sampleParser "https://example.com").2.2.2.2
      ⟨"https", some "example.com"⟩ (by decide) (by decide) (by decide) (by decide)
  · exact (garden_C9_validate_url sampleParser "ftp://x.com").2.2.1
      ⟨"ftp", some "x.com"⟩ (by decide) (by decide) (by decide)

/-!
Inversion of a successful `connect_block`, shared by several claims.
-/

theorem any_isPair_eq_false {conns : List Connection} {b : BlockId} {c : ChannelId}
    (h : ConnRepo.get_connection conns b c = none) :
    conns.any (ConnRepo.isPair b c) = false := by
  rw [Bool.eq_false_iff]
  intro hc
  obtain ⟨a, ha, hpa⟩ := List.any_eq_true.mp hc
  exact (List.find?_eq_none.mp h a ha) hpa

theorem connect_block_success {b : BlockId} {c : ChannelId} {p : Option Int}
    {now : Int} {st : GardenState} {conn : Connection} {st' : GardenState}
    (h : GardenService.connect_block b c p now st = (.ok conn, st')) :
    ∃ blk ch, st.blocks b = some blk ∧ st.channels c = some ch ∧
      ConnRepo.get_connection st.connections b c = none ∧
      conn = Connection.new b c (GardenService.resolve_position st.connections c p) now ∧
      st' = { st with connections := st.connections ++
        [Connection.new b c (GardenService.resolve_position st.connections c p) now] } := by
  unfold GardenService.connect_block at h
  cases hb : st.blocks b with
  | none =>
    simp only [GardenService.get_block, hb] at h
    exact Except.noConfusion (congrArg Prod.fst h)
  | some blk =>
  cases hch : st.channels c with
  | none =>
    simp only [GardenService.get_block, GardenService.get_channel, hb, hch] at h
    exact Except.noConfusion (congrArg Prod.fst h)
  | some ch =>
  simp only [GardenService.get_block, GardenService.get_channel, hb, hch] at h
  cases hgc : ConnRepo.get_connection st.connections b c with
  | some old =>
    rw [hgc] at h
    simp only [Option.isSome_some, if_true] at h
    exact Except.noConfusion (congrArg Prod.fst h)
  | none =>
  rw [hgc] at h
  simp only [Option.isSome_none, Bool.false_eq_true, if_false] at h
  rw [ConnRepo.connect,
    if_neg (by rw [any_isPair_eq_false hgc]; exact Bool.false_ne_true)] at h
  dsimp only at h
  rw [get_connection_append_right [] hgc
    (by simp [ConnRepo.isPair, Connection.new])] at h
  refine ⟨blk, ch, rfl, rfl, rfl, ?_, ?_⟩
  · exact (Except.ok.inj (congrArg Prod.fst h)).symm
  · exact (congrArg Prod.snd h).symm

/-!
C3: `next_position`.
-/

/-- C3: `next_position` returns 0 on a channel with no connections and
(max position) + 1 otherwise, and `connect_block` with no position appends
exactly at that value. -/
theorem garden_C3_next_position : ∀ (st : GardenState) (c : ChannelId),
    ((∀ cn ∈ st.connections, cn.channel_id ≠ c) →
      ConnRepo.next_position st.connections c = 0) ∧
    (∀ m : Int,
      (∃ cn ∈ st.connections, cn.channel_id = c ∧ cn.position = m) →
      (∀ cn ∈ st.connections, cn.channel_id = c → cn.position ≤ m) →
      ConnRepo.next_position st.connections c = m + 1) ∧
    (∀ b now conn st',
      GardenService.connect_block b c none now st = (.ok conn, st') →
      conn.position = ConnRepo.next_position st.connections c) := by
  intro st c
  refine ⟨?_, ?_, ?_⟩
  · intro h
    have hf : st.connections.filter (fun cn => cn.channel_id == c) = [] := by
      rw [List.filter_eq_nil_iff]
      intro cn hcn
      simp [h cn hcn]
    rw [ConnRepo.next_position, hf]
    rfl
  · intro m hmem hub
    obtain ⟨cn, hcn, hc, hp⟩ := hmem
    have hmax : ((st.connections.filter (fun cn => cn.channel_id == c)).map
        (fun cn => cn.position)).max? = some m := by
      rw [int_max?_eq_some_iff]
      constructor
      · exact List.mem_map.mpr ⟨cn, List.mem_filter.mpr ⟨hcn, by simp [hc]⟩, hp⟩
      · intro x hx
        obtain ⟨d, hd, hdx⟩ := List.mem_map.mp hx
        obtain ⟨hd1, hd2⟩ := List.mem_filter.mp hd
        exact hdx ▸ hub d hd1 (by simpa using hd2)
    rw [ConnRepo.next_position, hmax]
    rfl
  · intro b now conn st' h
    obtain ⟨_, _, _, _, _, hconn, _⟩ := connect_block_success h
    rw [hconn]
    rfl

/-- C3 witness: an empty channel yields `next_position = 0`, appending there
lands at position 0, and after a connection at position 7 the next position
is 8. -/
theorem garden_C3_next_position_witness :
    ConnRepo.next_position [] ⟨"c0"⟩ = 0 ∧
    ConnRepo.next_position [Connection.new ⟨"b0"⟩ ⟨"c0"⟩ 7 0] ⟨"c0"⟩ = 8 := by
  constructor
  · exact (garden_C3_next_position ⟨fun _ => none, fun _ => none, []⟩ ⟨"c0"⟩).1
      (by intro cn hcn; cases hcn)
  · exact (garden_C3_next_position
      ⟨fun _ => none, fun _ => none, [Connection.new ⟨"b0"⟩ ⟨"c0"⟩ 7 0]⟩ ⟨"c0"⟩).2.1 7
      ⟨Connection.new ⟨"b0"⟩ ⟨"c0"⟩ 7 0, by simp, rfl, rfl⟩
      (by intro cn hcn hc; cases hcn with
          | head => exact le_refl 7
          | tail _ hmem => cases hmem)

/-!
C2: repeated `connect_block` on the same pair.
-/

/-- C2: once `connect_block(b, c, p)` has succeeded, a second
`connect_block(b, c, p')` on the resulting state fails with the
duplicate-class `InvalidInput` error, for every position `p'` and clock
reading, and leaves the state (hence the stored connection) unchanged. -/
theorem garden_C2_duplicate_connect : ∀ (st : GardenState) (b : BlockId)
    (c : ChannelId) (p : Option Int) (now : Int) (conn : Connection)
    (st₁ : GardenState),
    GardenService.connect_block b c p now st = (.ok conn, st₁) →
    ∀ (p' : Option Int) (now' : Int),
      GardenService.connect_block b c p' now' st₁ =
        (.error (.InvalidInput "block is already connected to this channel"), st₁) := by
  intro st b c p now conn st₁ h p' now'
  obtain ⟨blk, ch, hb, hch, hgc, _, hst⟩ := connect_block_success h
  subst hst
  unfold GardenService.connect_block
  simp only [GardenService.get_block, GardenService.get_channel, hb, hch]
  rw [get_connection_append_right [] hgc
    (by simp [ConnRepo.isPair, Connection.new])]
  simp

/-- Sample channel used by concrete witnesses. -/
def chW : Channel := Channel.new ⟨"c1"⟩ 0 "Reading List"

/-- Sample block used by concrete witnesses. -/
def blW : Block := Block.new ⟨"b1"⟩ 0 (.Text "hello")

/-- A state holding exactly the sample channel and block, not yet connected. -/
def stW : GardenState :=
  { channels := fun i => if i = ChannelId.mk "c1" then some chW else none,
    blocks := fun i => if i = BlockId.mk "b1" then some blW else none,
    connections := [] }

/-- The state after connecting the sample block at position 0. -/
def stW1 : GardenState :=
  { stW with connections := [Connection.new ⟨"b1"⟩ ⟨"c1"⟩ 0 1] }

/-- C2 witness: after a concrete successful connect at position 0, a second
connect at position 5 returns the duplicate `InvalidInput` error and keeps
the state. -/
theorem garden_C2_duplicate_connect_witness :
    GardenService.connect_block ⟨"b1"⟩ ⟨"c1"⟩ (some 5) 2 stW1 =
      (.error (.InvalidInput "block is already connected to this channel"), stW1) :=
  garden_C2_duplicate_connect stW ⟨"b1"⟩ ⟨"c1"⟩ (some 0) 1
    (Connection.new ⟨"b1"⟩ ⟨"c1"⟩ 0 1) stW1 (by rfl) (some 5) 2

/-!
C8: `reorder_block`.
-/

theorem reorder_append_cons {l₁ l₂ : List Connection} {cn : Connection}
    {b : BlockId} {c : ChannelId} {p : Int}
    (h₁ : ∀ d ∈ l₁, ConnRepo.isPair b c d = false)
    (hcn : ConnRepo.isPair b c cn = true) :
    ConnRepo.reorder (l₁ ++ cn :: l₂) c b p =
      .ok (l₁ ++ { cn with position := p } :: l₂) := by
  induction l₁ with
  | nil => simp [ConnRepo.reorder, hcn]
  | cons d ds ih =>
    have hd := h₁ d (by simp)
    simp only [List.cons_append, ConnRepo.reorder, hd, Bool.false_eq_true,
      if_false, List.append_eq]
    rw [ih (fun x hx => h₁ x (by simp [hx]))]

/-- C8: `reorder_block` fails with `ConnectionNotFound` and leaves the state
unchanged when the pair is absent; otherwise it succeeds, setting exactly the
found connection's position to the requested value — no uniqueness check
against other positions — and leaving every other connection (and the block
and channel stores) untouched. -/
theorem garden_C8_reorder : ∀ (st : GardenState) (c : ChannelId) (b : BlockId)
    (p : Int),
    ((∀ cn ∈ st.connections, ¬(cn.block_id = b ∧ cn.channel_id = c)) →
      GardenService.reorder_block c b p st =
        (.error (.ConnectionNotFound b c), st)) ∧
    (∀ l₁ cn l₂, st.connections = l₁ ++ cn :: l₂ →
      (∀ d ∈ l₁, ¬(d.block_id = b ∧ d.channel_id = c)) →
      cn.block_id = b → cn.channel_id = c →
      GardenService.reorder_block c b p st =
        (.ok (), { st with connections := l₁ ++ { cn with position := p } :: l₂ })) := by
  intro st c b p
  constructor
  · intro h
    have hnone : ConnRepo.get_connection st.connections b c = none := by
      rw [ConnRepo.get_connection, List.find?_eq_none]
      intro cn hcn hp
      rw [ConnRepo.isPair, Bool.and_eq_true, beq_iff_eq, beq_iff_eq] at hp
      exact h cn hcn hp
    unfold GardenService.reorder_block
    rw [hnone]
  · intro l₁ cn l₂ hconns h₁ hb hc
    have h₁' : ∀ d ∈ l₁, ConnRepo.isPair b c d = false := by
      intro d hd
      rw [Bool.eq_false_iff]
      intro hp
      rw [ConnRepo.isPair, Bool.and_eq_true, beq_iff_eq, beq_iff_eq] at hp
      exact h₁ d hd hp
    have hcn : ConnRepo.isPair b c cn = true := by
      simp [ConnRepo.isPair, hb, hc]
    have hfind : ConnRepo.get_connection st.connections b c = some cn := by
      rw [hconns]
      exact find?_append_cons h₁' hcn
    unfold GardenService.reorder_block
    rw [hfind, hconns, reorder_append_cons h₁' hcn]

/-- C8 witness: reordering the sample connection to position 5 succeeds and
rewrites exactly that connection's position; reordering an absent pair fails
with `ConnectionNotFound` and keeps the state. -/
theorem garden_C8_reorder_witness :
    GardenService.reorder_block ⟨"c1"⟩ ⟨"b1"⟩ 5 stW1 =
      (.ok (), { stW1 with
        connections := [{ Connection.new ⟨"b1"⟩ ⟨"c1"⟩ 0 1 with position := 5 }] }) ∧
    GardenService.reorder_block ⟨"c1"⟩ ⟨"b1"⟩ 5 stW =
      (.error (.ConnectionNotFound ⟨"b1"⟩ ⟨"c1"⟩), stW) := by
  constructor
  · exact (garden_C8_reorder stW1 ⟨"c1"⟩ ⟨"b1"⟩ 5).2
      [] (Connection.new ⟨"b1"⟩ ⟨"c1"⟩ 0 1) [] rfl
      (by intro d hd; cases hd) rfl rfl
  · exact (garden_C8_reorder stW ⟨"c1"⟩ ⟨"b1"⟩ 5).1 (by intro cn hcn; cases hcn)

/-!
C4: `get_blocks_in_channel` ordering and contents.
-/

/-- C4: `get_blocks_in_channel` returns exactly the blocks connected to the
channel (paired with their connection's position) and its output is sorted
ascending by position. -/
theorem garden_C4_blocks_in_channel : ∀ (st : GardenState) (c : ChannelId),
    List.Sorted (· ≤ ·)
      ((ConnRepo.get_blocks_in_channel st.connections st.blocks c).map Prod.snd) ∧
    (∀ b p, (b, p) ∈ ConnRepo.get_blocks_in_channel st.connections st.blocks c ↔
      ∃ cn ∈ st.connections, cn.channel_id = c ∧
        st.blocks cn.block_id = some b ∧ cn.position = p) := by
  intro st c
  constructor
  · have hs := @List.sorted_mergeSort (Block × Int)
      (fun x y => decide (x.2 ≤ y.2))
      (fun a b d h1 h2 => by
        simp only [decide_eq_true_eq] at h1 h2 ⊢
        exact le_trans h1 h2)
      (fun a b => by
        simp only [Bool.or_eq_true, decide_eq_true_eq]
        exact le_total a.2 b.2)
      ((st.connections.filter (fun cn => cn.channel_id == c)).filterMap
        (fun cn => (st.blocks cn.block_id).map (fun b => (b, cn.position))))
    show List.Pairwise _ _
    rw [List.pairwise_map]
    exact hs.imp (fun h => of_decide_eq_true h)
  · intro b p
    rw [ConnRepo.get_blocks_in_channel, List.mem_mergeSort]
    simp only [List.mem_filterMap, List.mem_filter, Option.map_eq_some',
      beq_iff_eq, Prod.mk.injEq]
    constructor
    · rintro ⟨cn, ⟨hcn, hch⟩, y, hy, hyb, hyp⟩
      exact ⟨cn, hcn, hch, hyb ▸ hy, hyp⟩
    · rintro ⟨cn, hcn, hch, hb, hp⟩
      exact ⟨cn, ⟨hcn, hch⟩, b, hb, rfl, hp⟩

/-- C4 witness: the sorted and membership facts at a concrete one-connection
state. -/
theorem garden_C4_blocks_in_channel_witness :
    List.Sorted (· ≤ ·)
      ((ConnRepo.get_blocks_in_channel stW1.connections stW1.blocks
        ⟨"c1"⟩).map Prod.snd) :=
  (garden_C4_blocks_in_channel stW1 ⟨"c1"⟩).1

/-!
C10: update operations and timestamps.
-/

/-- C10: a successful `update_channel` / `update_block` always stamps
`updated_at` with the current instant — also on a no-change payload, which
always succeeds — never touches `id` or `created_at`, and `update_block`
keeps the content when the payload's content is `None`. -/
theorem garden_C10_update_timestamps : ∀ (up : UrlParser) (st : GardenState)
    (now : Int),
    (∀ ch u ch' st', st.channels ch.id = some ch →
      GardenService.update_channel ch.id u now st = (.ok ch', st') →
      ch'.updated_at = now ∧ ch'.id = ch.id ∧ ch'.created_at = ch.created_at) ∧
    (∀ ch, st.channels ch.id = some ch →
      GardenService.update_channel ch.id { title := none, description := .Keep }
        now st =
        (.ok { ch with updated_at := now },
         st.insertChannel { ch with updated_at := now })) ∧
    (∀ b u b' st', st.blocks b.id = some b →
      GardenService.update_block up b.id u now st = (.ok b', st') →
      b'.updated_at = now ∧ b'.id = b.id ∧ b'.created_at = b.created_at ∧
        (u.content = none → b'.content = b.content)) ∧
    (∀ b, st.blocks b.id = some b →
      GardenService.update_block up b.id {} now st =
        (.ok { b with updated_at := now },
         st.insertBlock { b with updated_at := now })) := by
  intro up st now
  refine ⟨?_, ?_, ?_, ?_⟩
  · intro ch u ch' st' hch h
    unfold GardenService.update_channel at h
    simp only [GardenService.get_channel, hch] at h
    cases ht : u.title with
    | some t =>
      rw [ht] at h
      dsimp only at h
      cases hv : validate_channel_title t with
      | error e =>
        rw [hv] at h
        exact Except.noConfusion (congrArg Prod.fst h)
      | ok _ =>
        rw [hv] at h
        dsimp only at h
        have hc := Except.ok.inj (congrArg Prod.fst h)
        rw [← hc]
        exact ⟨rfl, rfl, rfl⟩
    | none =>
      rw [ht] at h
      dsimp only at h
      have hc := Except.ok.inj (congrArg Prod.fst h)
      rw [← hc]
      exact ⟨rfl, rfl, rfl⟩
  · intro ch hch
    unfold GardenService.update_channel
    simp only [GardenService.get_channel, hch]
    rfl
  · intro b u b' st' hb h
    unfold GardenService.update_block at h
    simp only [GardenService.get_block, hb] at h
    cases hcnt : u.content with
    | some content =>
      rw [hcnt] at h
      dsimp only at h
      cases hv : validate_block_content up content with
      | error e =>
        rw [hv] at h
        exact Except.noConfusion (congrArg Prod.fst h)
      | ok _ =>
        rw [hv] at h
        dsimp only at h
        have hc := Except.ok.inj (congrArg Prod.fst h)
        rw [← hc]
        refine ⟨rfl, rfl, rfl, fun hnone => ?_⟩
        simp at hnone
    | none =>
      rw [hcnt] at h
      dsimp only at h
      have hc := Except.ok.inj (congrArg Prod.fst h)
      rw [← hc]
      exact ⟨rfl, rfl, rfl, fun _ => rfl⟩
  · intro b hb
    unfold GardenService.update_block
    simp only [GardenService.get_block, hb]
    rfl

/-- C10 witness: updating the sample channel and block with no-change
payloads stamps `updated_at` and changes nothing else. -/
theorem garden_C10_update_timestamps_witness :
    GardenService.update_channel chW.id { title := none, description := .Keep }
      3 stW =
      (.ok { chW with updated_at := 3 },
       stW.insertChannel { chW with updated_at := 3 }) ∧
    GardenService.update_block sampleParser blW.id {} 3 stW =
      (.ok { blW with updated_at := 3 },
       stW.insertBlock { blW with updated_at := 3 }) := by
  constructor
  · exact (garden_C10_update_timestamps sampleParser stW 3).2.1 chW (by rfl)
  · exact (garden_C10_update_timestamps sampleParser stW 3).2.2.2 blW (by rfl)

/-!
C6: batch validation before persistence.
-/

theorem onlyInvalid_validate_text : ∀ t, onlyInvalid (validate_text t) := by
  intro t e h
  unfold validate_text at h
  split at h
  · exact ⟨_, (Except.error.inj h).symm⟩
  · exact Except.noConfusion h

theorem onlyInvalid_validate_optional_text :
    ∀ f t, onlyInvalid (validate_optional_text f t) := by
  intro f t e h
  unfold validate_optional_text at h
  split at h
  · exact Except.noConfusion h
  split at h
  · exact ⟨_, (Except.error.inj h).symm⟩
  · exact Except.noConfusion h

theorem onlyInvalid_validate_file_path : ∀ t, onlyInvalid (validate_file_path t) := by
  intro t e h
  unfold validate_file_path at h
  split at h
  · exact ⟨_, (Except.error.inj h).symm⟩
  split at h
  · exact ⟨_, (Except.error.inj h).symm⟩
  split at h
  · exact ⟨_, (Except.error.inj h).symm⟩
  · exact Except.noConfusion h

theorem onlyInvalid_validate_mime_type :
    ∀ t cat, onlyInvalid (validate_mime_type t cat) := by
  intro t cat e h
  unfold validate_mime_type at h
  split at h
  · exact ⟨_, (Except.error.inj h).symm⟩
  split at h
  · exact ⟨_, (Except.error.inj h).symm⟩
  · exact Except.noConfusion h

theorem onlyInvalid_validate_url : ∀ up s, onlyInvalid (validate_url up s) := by
  intro up s e h
  unfold validate_url at h
  split at h
  · exact ⟨_, (Except.error.inj h).symm⟩
  split at h
  · exact ⟨_, (Except.error.inj h).symm⟩
  split at h
  · split at h
    · exact ⟨_, (Except.error.inj h).symm⟩
    · exact Except.noConfusion h
  · exact ⟨_, (Except.error.inj h).symm⟩

theorem onlyInvalid_validate_opt : ∀ f t, onlyInvalid (validate_opt f t) := by
  intro f t e h
  cases t with
  | none => exact Except.noConfusion h
  | some s => exact onlyInvalid_validate_optional_text f s e h

theorem onlyInvalid_validate_opt_url :
    ∀ up t, onlyInvalid (validate_opt_url up t) := by
  intro up t e h
  cases t with
  | none => exact Except.noConfusion h
  | some s => exact onlyInvalid_validate_url up s e h

theorem onlyInvalid_bind {a : Except DomainError Unit}
    {f : Unit → Except DomainError Unit}
    (ha : onlyInvalid a) (hf : ∀ u, onlyInvalid (f u)) :
    onlyInvalid (a >>= f) := by
  intro e h
  cases haa : a with
  | error e' =>
    rw [haa] at h
    have he : e' = e := Except.error.inj h
    exact he ▸ ha e' haa
  | ok u =>
    rw [haa] at h
    exact hf u e h

theorem onlyInvalid_validate_block_content :
    ∀ up ct, onlyInvalid (validate_block_content up ct) := by
  intro up ct
  cases ct with
  | Text body => exact onlyInvalid_validate_text body
  | Link url title description alt_text =>
    exact onlyInvalid_bind (onlyInvalid_validate_url up url) (fun _ =>
      onlyInvalid_bind (onlyInvalid_validate_opt "title" title) (fun _ =>
        onlyInvalid_bind (onlyInvalid_validate_opt "description" description)
          (fun _ => onlyInvalid_validate_opt "alt_text" alt_text)))
  | Image file_path original_url w hgt mime_type alt_text =>
    exact onlyInvalid_bind (onlyInvalid_validate_file_path file_path) (fun _ =>
      onlyInvalid_bind (onlyInvalid_validate_mime_type mime_type "image") (fun _ =>
        onlyInvalid_bind (onlyInvalid_validate_opt "alt_text" alt_text)
          (fun _ => onlyInvalid_validate_opt_url up original_url)))
  | Video file_path original_url w hgt dur mime_type alt_text =>
    exact onlyInvalid_bind (onlyInvalid_validate_file_path file_path) (fun _ =>
      onlyInvalid_bind (onlyInvalid_validate_mime_type mime_type "video") (fun _ =>
        onlyInvalid_bind (onlyInvalid_validate_opt "alt_text" alt_text)
          (fun _ => onlyInvalid_validate_opt_url up original_url)))
  | Audio file_path original_url dur mime_type title artist =>
    exact onlyInvalid_bind (onlyInvalid_validate_file_path file_path) (fun _ =>
      onlyInvalid_bind (onlyInvalid_validate_mime_type mime_type "audio") (fun _ =>
        onlyInvalid_bind (onlyInvalid_validate_opt "title" title) (fun _ =>
          onlyInvalid_bind (onlyInvalid_validate_opt "artist" artist)
            (fun _ => onlyInvalid_validate_opt_url up original_url))))

theorem validate_all_error_of_mem {up : UrlParser} {nbs : List NewBlock}
    (h : ∃ nb ∈ nbs, validate_block_content up nb.content ≠ .ok ()) :
    ∃ m, GardenService.validate_all up nbs = .error (.InvalidInput m) := by
  induction nbs with
  | nil =>
    obtain ⟨nb, hnb, _⟩ := h
    cases hnb
  | cons x xs ih =>
    cases hx : validate_block_content up x.content with
    | error e =>
      obtain ⟨m, hm⟩ := onlyInvalid_validate_block_content up x.content e hx
      refine ⟨m, ?_⟩
      show (validate_block_content up x.content >>=
        (fun _ => GardenService.validate_all up xs)) = _
      rw [hx, hm]
      rfl
    | ok u =>
      cases u
      obtain ⟨nb, hnb, hne⟩ := h
      cases hnb with
      | head => exact absurd hx hne
      | tail _ hmem =>
        obtain ⟨m, hm⟩ := ih ⟨nb, hmem, hne⟩
        refine ⟨m, ?_⟩
        show (validate_block_content up x.content >>=
          (fun _ => GardenService.validate_all up xs)) = _
        rw [hx]
        exact hm

/-- C6: when any item of a `create_blocks` batch has invalid content, the
whole call fails with `InvalidInput` and the state is unchanged — zero
blocks are persisted, so a get on any fresh would-be id still misses. -/
theorem garden_C6_create_blocks_all_or_nothing : ∀ (up : UrlParser)
    (nbs : List NewBlock) (ids : List BlockId) (now : Int) (st : GardenState),
    (∃ nb ∈ nbs, validate_block_content up nb.content ≠ .ok ()) →
    ∃ m, GardenService.create_blocks up nbs ids now st =
      (.error (.InvalidInput m), st) := by
  intro up nbs ids now st h
  obtain ⟨m, hm⟩ := validate_all_error_of_mem h
  refine ⟨m, ?_⟩
  unfold GardenService.create_blocks
  rw [hm]

/-- C6 witness: a two-item batch whose second item is whitespace-only text is
rejected as `InvalidInput` with nothing persisted. -/
theorem garden_C6_create_blocks_all_or_nothing_witness :
    ∃ m, GardenService.create_blocks sampleParser
      [{ content := .Text "ok" }, { content := .Text "   " }]
      [⟨"b8"⟩, ⟨"b9"⟩] 0 emptyState = (.error (.InvalidInput m), emptyState) :=
  garden_C6_create_blocks_all_or_nothing sampleParser
    [{ content := .Text "ok" }, { content := .Text "   " }]
    [⟨"b8"⟩, ⟨"b9"⟩] 0 emptyState
    ⟨{ content := .Text "   " }, by simp, by decide⟩

/-!
C5: cascade deletion.
-/

/-- C5 (evaluation at the failing input): `delete_channel` on a state with
one channel, one block and one connection succeeds and removes the channel,
but the connection referencing the deleted channel remains in the store (and
symmetrically `delete_block` leaves its connection behind). -/
theorem garden_C5_delete_leaves_connections :
    (GardenService.delete_channel ⟨"c1"⟩ stW1).1 = .ok () ∧
    (GardenService.delete_channel ⟨"c1"⟩ stW1).2.channels ⟨"c1"⟩ = none ∧
    (GardenService.delete_channel ⟨"c1"⟩ stW1).2.connections =
      [Connection.new ⟨"b1"⟩ ⟨"c1"⟩ 0 1] ∧
    (GardenService.delete_channel ⟨"c1"⟩ stW1).2.blocks ⟨"b1"⟩ = some blW ∧
    (GardenService.delete_block ⟨"b1"⟩ stW1).1 = .ok () ∧
    (GardenService.delete_block ⟨"b1"⟩ stW1).2.connections =
      [Connection.new ⟨"b1"⟩ ⟨"c1"⟩ 0 1] := by
  refine ⟨rfl, by decide, rfl, rfl, rfl, rfl⟩

/-!
C1: pair uniqueness over reachable states — frame and success lemmas.
-/

theorem foldl_insertBlock_connections : ∀ (bs : List Block) (st : GardenState),
    (bs.foldl GardenState.insertBlock st).connections = st.connections := by
  intro bs
  induction bs with
  | nil => intro st; rfl
  | cons b rest ih => intro st; exact ih (st.insertBlock b)

theorem create_channel_connections (nc : NewChannel) (id : ChannelId) (now : Int)
    (st : GardenState) :
    (GardenService.create_channel nc id now st).2.connections = st.connections := by
  unfold GardenService.create_channel
  split
  · rfl
  · split <;> (dsimp only; split <;> rfl)

theorem create_block_connections (up : UrlParser) (nb : NewBlock) (id : BlockId)
    (now : Int) (st : GardenState) :
    (GardenService.create_block up nb id now st).2.connections = st.connections := by
  unfold GardenService.create_block
  split
  · rfl
  · dsimp only
    split <;> rfl

theorem create_blocks_connections (up : UrlParser) (nbs : List NewBlock)
    (ids : List BlockId) (now : Int) (st : GardenState) :
    (GardenService.create_blocks up nbs ids now st).2.connections = st.connections := by
  unfold GardenService.create_blocks
  split
  · rfl
  · dsimp only
    cases hcb : GardenService.create_batch st
        ((nbs.zip ids).map (fun p => Block.new p.2 now p.1.content)) with
    | error e => rfl
    | ok st₂ =>
      show st₂.connections = st.connections
      unfold GardenService.create_batch at hcb
      split at hcb
      · exact Except.noConfusion hcb
      · rw [← Except.ok.inj hcb]
        exact foldl_insertBlock_connections _ st

theorem update_channel_connections (id : ChannelId) (u : ChannelUpdate) (now : Int)
    (st : GardenState) :
    (GardenService.update_channel id u now st).2.connections = st.connections := by
  unfold GardenService.update_channel
  split
  · rfl
  · split
    · split
      · rfl
      · dsimp only
        split <;> rfl
    · dsimp only
      split <;> rfl

theorem update_block_connections (up : UrlParser) (id : BlockId) (u : BlockUpdate)
    (now : Int) (st : GardenState) :
    (GardenService.update_block up id u now st).2.connections = st.connections := by
  unfold GardenService.update_block
  split
  · rfl
  · split
    · split
      · rfl
      · dsimp only
        split <;> rfl
    · dsimp only
      split <;> rfl

theorem delete_channel_connections (id : ChannelId) (st : GardenState) :
    (GardenService.delete_channel id st).2.connections = st.connections := by
  unfold GardenService.delete_channel
  repeat' split
  all_goals rfl

theorem delete_block_connections (id : BlockId) (st : GardenState) :
    (GardenService.delete_block id st).2.connections = st.connections := by
  unfold GardenService.delete_block
  repeat' split
  all_goals rfl

theorem disconnect_block_success {b : BlockId} {c : ChannelId} {st : GardenState}
    {u : Unit} {st' : GardenState}
    (h : GardenService.disconnect_block b c st = (.ok u, st')) :
    st'.connections = st.connections.filter (fun cn => !(ConnRepo.isPair b c cn)) := by
  unfold GardenService.disconnect_block at h
  cases hg : ConnRepo.get_connection st.connections b c with
  | none =>
    rw [hg] at h
    exact Except.noConfusion (congrArg Prod.fst h)
  | some cn =>
    rw [hg] at h
    unfold ConnRepo.disconnect at h
    dsimp only at h
    by_cases hlen : (st.connections.filter (fun cn => !(ConnRepo.isPair b c cn))).length =
        st.connections.length
    · rw [if_pos hlen] at h
      exact Except.noConfusion (congrArg Prod.fst h)
    · rw [if_neg hlen] at h
      dsimp only at h
      exact (congrArg GardenState.connections (congrArg Prod.snd h)).symm

theorem reorder_map_pairKey : ∀ {conns : List Connection} {c : ChannelId}
    {b : BlockId} {p : Int} {l' : List Connection},
    ConnRepo.reorder conns c b p = .ok l' →
    l'.map pairKey = conns.map pairKey := by
  intro conns
  induction conns with
  | nil => intro c b p l' h; exact Except.noConfusion h
  | cons d ds ih =>
    intro c b p l' h
    unfold ConnRepo.reorder at h
    split at h
    · rw [← Except.ok.inj h]
      rfl
    · cases hr : ConnRepo.reorder ds c b p with
      | ok rest' =>
        rw [hr] at h
        rw [← Except.ok.inj h]
        simp only [List.map_cons]
        rw [ih hr]
      | error e =>
        rw [hr] at h
        exact Except.noConfusion h

theorem reorder_block_success {c : ChannelId} {b : BlockId} {p : Int}
    {st : GardenState} {u : Unit} {st' : GardenState}
    (h : GardenService.reorder_block c b p st = (.ok u, st')) :
    st'.connections.map pairKey = st.connections.map pairKey := by
  unfold GardenService.reorder_block at h
  cases hg : ConnRepo.get_connection st.connections b c with
  | none =>
    rw [hg] at h
    exact Except.noConfusion (congrArg Prod.fst h)
  | some cn =>
    rw [hg] at h
    cases hr : ConnRepo.reorder st.connections c b p with
    | error e =>
      rw [hr] at h
      exact Except.noConfusion (congrArg Prod.fst h)
    | ok l' =>
      rw [hr] at h
      have : st'.connections = l' :=
        (congrArg GardenState.connections (congrArg Prod.snd h)).symm
      rw [this]
      exact reorder_map_pairKey hr

theorem check_blocks_ok : ∀ {st : GardenState} {c : ChannelId} {bs : List BlockId},
    GardenService.check_blocks st c bs = .ok () →
    ∀ b ∈ bs, ConnRepo.get_connection st.connections b c = none := by
  intro st c bs
  induction bs with
  | nil => intro _ b hb; cases hb
  | cons x xs ih =>
    intro h b hb
    unfold GardenService.check_blocks at h
    cases hx : GardenService.get_block st x with
    | error e => rw [hx] at h; exact Except.noConfusion h
    | ok blk =>
      rw [hx] at h
      cases hg : ConnRepo.get_connection st.connections x c with
      | some _ =>
        rw [hg] at h
        simp only [Option.isSome_some, if_true] at h
        exact Except.noConfusion h
      | none =>
        rw [hg] at h
        simp only [Option.isSome_none, Bool.false_eq_true, if_false] at h
        cases hb with
        | head => exact hg
        | tail _ hmem => exact ih h b hmem

theorem with_positions_map_fst : ∀ {c : ChannelId} {bs : List BlockId} (pos : Int),
    (GardenService.with_positions c pos bs).map (fun t => (t.1, t.2.1)) =
      bs.map (fun b => (b, c)) := by
  intro c bs
  induction bs with
  | nil => intro pos; rfl
  | cons x xs ih =>
    intro pos
    simp only [GardenService.with_positions, List.map_cons]
    rw [ih]

theorem connect_blocks_success {bs : List BlockId} {c : ChannelId}
    {p : Option Int} {now : Int} {st : GardenState} {res : List Connection}
    {st' : GardenState}
    (h : GardenService.connect_blocks bs c p now st = (.ok res, st')) :
    (∀ b ∈ bs, ConnRepo.get_connection st.connections b c = none) ∧
    st'.connections = st.connections ++
      (GardenService.with_positions c
        (GardenService.resolve_position st.connections c p) bs).map
        (fun t => Connection.new t.1 t.2.1 t.2.2 now) := by
  unfold GardenService.connect_blocks at h
  cases hch : GardenService.get_channel st c with
  | error e =>
    rw [hch] at h
    exact Except.noConfusion (congrArg Prod.fst h)
  | ok ch =>
  rw [hch] at h
  cases hcb : GardenService.check_blocks st c bs with
  | error e =>
    rw [hcb] at h
    exact Except.noConfusion (congrArg Prod.fst h)
  | ok u =>
  cases u
  rw [hcb] at h
  dsimp only at h
  have hnone := check_blocks_ok hcb
  have hguard : (GardenService.with_positions c
      (GardenService.resolve_position st.connections c p) bs).any
      (fun t => st.connections.any (ConnRepo.isPair t.1 t.2.1)) = false := by
    rw [Bool.eq_false_iff]
    intro hc2
    obtain ⟨t, ht, hta⟩ := List.any_eq_true.mp hc2
    have hkey : (t.1, t.2.1) ∈ bs.map (fun b => (b, c)) := by
      rw [← with_positions_map_fst (c := c)
        (GardenService.resolve_position st.connections c p)]
      exact List.mem_map_of_mem _ ht
    obtain ⟨b, hbmem, hbeq⟩ := List.mem_map.mp hkey
    have hb1 : t.1 = b := (congrArg Prod.fst hbeq).symm
    have hb2 : t.2.1 = c := (congrArg Prod.snd hbeq).symm
    rw [hb1, hb2] at hta
    rw [any_isPair_eq_false (hnone b hbmem)] at hta
    exact Bool.noConfusion hta
  rw [ConnRepo.connect_batch,
    if_neg (by rw [hguard]; exact Bool.false_ne_true)] at h
  dsimp only at h
  exact ⟨hnone, (congrArg GardenState.connections (congrArg Prod.snd h)).symm⟩

theorem exec_pairUnique {up : UrlParser} {op : Op} {st st' : GardenState}
    (hg : op.good) (hu : pairUnique st.connections)
    (h : exec up op st = some st') : pairUnique st'.connections := by
  cases op with
  | create_channel nc id now =>
    obtain ⟨a, ha⟩ := toNext_eq_some.mp h
    have hc : st'.connections = st.connections := by
      rw [show st' = (GardenService.create_channel nc id now st).2 from
        (congrArg Prod.snd ha).symm]
      exact create_channel_connections nc id now st
    rwa [pairUnique, hc]
  | create_block nb id now =>
    obtain ⟨a, ha⟩ := toNext_eq_some.mp h
    have hc : st'.connections = st.connections := by
      rw [show st' = (GardenService.create_block up nb id now st).2 from
        (congrArg Prod.snd ha).symm]
      exact create_block_connections up nb id now st
    rwa [pairUnique, hc]
  | create_blocks nbs ids now =>
    obtain ⟨a, ha⟩ := toNext_eq_some.mp h
    have hc : st'.connections = st.connections := by
      rw [show st' = (GardenService.create_blocks up nbs ids now st).2 from
        (congrArg Prod.snd ha).symm]
      exact create_blocks_connections up nbs ids now st
    rwa [pairUnique, hc]
  | update_channel id u now =>
    obtain ⟨a, ha⟩ := toNext_eq_some.mp h
    have hc : st'.connections = st.connections := by
      rw [show st' = (GardenService.update_channel id u now st).2 from
        (congrArg Prod.snd ha).symm]
      exact update_channel_connections id u now st
    rwa [pairUnique, hc]
  | update_block id u now =>
    obtain ⟨a, ha⟩ := toNext_eq_some.mp h
    have hc : st'.connections = st.connections := by
      rw [show st' = (GardenService.update_block up id u now st).2 from
        (congrArg Prod.snd ha).symm]
      exact update_block_connections up id u now st
    rwa [pairUnique, hc]
  | delete_channel id =>
    obtain ⟨a, ha⟩ := toNext_eq_some.mp h
    have hc : st'.connections = st.connections := by
      rw [show st' = (GardenService.delete_channel id st).2 from
        (congrArg Prod.snd ha).symm]
      exact delete_channel_connections id st
    rwa [pairUnique, hc]
  | delete_block id =>
    obtain ⟨a, ha⟩ := toNext_eq_some.mp h
    have hc : st'.connections = st.connections := by
      rw [show st' = (GardenService.delete_block id st).2 from
        (congrArg Prod.snd ha).symm]
      exact delete_block_connections id st
    rwa [pairUnique, hc]
  | connect_block b c pos now =>
    obtain ⟨conn, ha⟩ := toNext_eq_some.mp h
    obtain ⟨_, _, _, _, hgc, _, hst⟩ := connect_block_success ha
    rw [pairUnique, hst]
    show ((st.connections ++ _).map pairKey).Nodup
    rw [List.map_append, List.nodup_append]
    refine ⟨hu, List.nodup_singleton _, ?_⟩
    intro a hal har
    have ha2 : a = (b, c) := by
      simpa [pairKey, Connection.new] using har
    rw [ha2] at hal
    exact get_connection_eq_none_iff.mp hgc hal
  | connect_blocks bs c pos now =>
    obtain ⟨res, ha⟩ := toNext_eq_some.mp h
    obtain ⟨hnone, hconns⟩ := connect_blocks_success ha
    rw [pairUnique, hconns, List.map_append, List.nodup_append]
    have hkeys : ((GardenService.with_positions c
        (GardenService.resolve_position st.connections c pos) bs).map
          (fun t => Connection.new t.1 t.2.1 t.2.2 now)).map pairKey =
        bs.map (fun b => (b, c)) := by
      rw [List.map_map]
      exact with_positions_map_fst _
    refine ⟨hu, ?_, ?_⟩
    · rw [hkeys]
      exact (hg : bs.Nodup).map (fun x y hxy => congrArg Prod.fst hxy)
    · intro a hal har
      rw [hkeys] at har
      obtain ⟨b, hbmem, hbeq⟩ := List.mem_map.mp har
      rw [← hbeq] at hal
      exact get_connection_eq_none_iff.mp (hnone b hbmem) hal
  | disconnect_block b c =>
    obtain ⟨a, ha⟩ := toNext_eq_some.mp h
    have hc := disconnect_block_success ha
    rw [pairUnique, hc]
    exact hu.sublist (List.Sublist.map pairKey (List.filter_sublist _))
  | reorder_block c b pos =>
    obtain ⟨a, ha⟩ := toNext_eq_some.mp h
    have hc := reorder_block_success ha
    rw [pairUnique, hc]
    exact hu

theorem runOps_pairUnique {up : UrlParser} : ∀ {ops : List Op}
    {st st' : GardenState}, (∀ op ∈ ops, op.good) →
    pairUnique st.connections → runOps up ops st = some st' →
    pairUnique st'.connections := by
  intro ops
  induction ops with
  | nil =>
    intro st st' _ hu h
    rw [← Option.some.inj h]
    exact hu
  | cons op ops ih =>
    intro st st' hg hu h
    unfold runOps at h
    cases he : exec up op st with
    | none => rw [he] at h; exact Option.noConfusion h
    | some st₁ =>
      rw [he] at h
      exact ih (fun o ho => hg o (List.mem_cons_of_mem op ho))
        (exec_pairUnique (hg op (List.mem_cons_self op ops)) hu he) h

/-- C1 (amended): over every state reachable by successful service
operations whose `connect_blocks` inputs repeat no block id, the connection
store holds at most one connection per (block_id, channel_id) pair. -/
theorem garden_C1_pair_unique_amended : ∀ (up : UrlParser) (st : GardenState),
    ReachableNodup up st → pairUnique st.connections := by
  intro up st hreach
  obtain ⟨ops, hgood, hrun⟩ := hreach
  exact runOps_pairUnique hgood (by simp [pairUnique, emptyState]) hrun

/-- A parser used by the concrete traces (never consulted: they only create
text blocks). -/
def cexUp : UrlParser := fun _ => none

/-- A well-formed trace: create a channel and a block, then connect them. -/
def witOps : List Op :=
  [ .create_channel ⟨"Reading List", none⟩ ⟨"c1"⟩ 0,
    .create_block { content := .Text "hello" } ⟨"b1"⟩ 0,
    .connect_block ⟨"b1"⟩ ⟨"c1"⟩ (some 0) 1 ]

/-- C1 witness: the state reached by the concrete three-operation trace
satisfies pair uniqueness. -/
theorem garden_C1_pair_unique_amended_witness : pairUnique stW1.connections := by
  have hgood : ∀ op ∈ witOps, op.good := by
    intro op hop
    cases hop with
    | head => trivial
    | tail _ hop =>
      cases hop with
      | head => trivial
      | tail _ hop =>
        cases hop with
        | head => trivial
        | tail _ hop => cases hop
  exact garden_C1_pair_unique_amended cexUp stW1 ⟨witOps, hgood, by rfl⟩

/-- The trace refuting the claim as stated: `connect_blocks` called with the
same block id twice in one batch. -/
def cexOps : List Op :=
  [ .create_channel ⟨"Reading List", none⟩ ⟨"c0"⟩ 0,
    .create_block { content := .Text "hello" } ⟨"b0"⟩ 0,
    .connect_blocks [⟨"b0"⟩, ⟨"b0"⟩] ⟨"c0"⟩ none 0 ]

/-- The connection store of the state a trace reaches. -/
def runConnections (up : UrlParser) (ops : List Op) : Option (List Connection) :=
  (runOps up ops emptyState).map (fun st => st.connections)

/-- C1 counterexample: the claim as stated is false — the `cexOps` trace of
successful service operations reaches a state whose store holds two
connections for the pair (b0, c0). -/
theorem garden_C1_counterexample :
    ¬ (∀ (up : UrlParser) (st : GardenState),
        Reachable up st → pairUnique st.connections) := by
  intro hclaim
  have hconns : runConnections cexUp cexOps =
      some [Connection.new ⟨"b0"⟩ ⟨"c0"⟩ 0 0,
            Connection.new ⟨"b0"⟩ ⟨"c0"⟩ 1 0] := by rfl
  cases hr : runOps cexUp cexOps emptyState with
  | none =>
    rw [runConnections, hr] at hconns
    exact Option.noConfusion hconns
  | some st =>
    have hst : st.connections =
        [Connection.new ⟨"b0"⟩ ⟨"c0"⟩ 0 0, Connection.new ⟨"b0"⟩ ⟨"c0"⟩ 1 0] := by
      rw [runConnections, hr] at hconns
      exact Option.some.inj hconns
    have hp := hclaim cexUp st ⟨cexOps, hr⟩
    rw [pairUnique, hst] at hp
    exact absurd hp (by decide)

end Garden
